import Mathlib

/-!
Shallow embedding of `src/folderSizer/app.py` (Mass-File-Size-Finder).

The embedded core is the size-aggregation engine (`get_total_folder_size`,
`analyze_subfolder`, `split_analysis`, `analyze_folder`,
`analyze_files_in_directory`, `perform_analysis`, `analyze_and_plot`), the
size formatter `format_size`, and the navigation history (`history` plus the
`go_back` closure).  The presentation layer (tkinter dialogs, matplotlib
rendering, tooltips) is out of scope, as in the specification.

Modelling conventions, each justified against CPython semantics:

* The filesystem is a finite tree (`FS`): regular files with byte sizes and
  directories.  A directory carries a `readable` flag: `false` models a
  directory whose listing (`os.listdir` / `os.scandir`) raises
  `PermissionError` (the same shape would model `FileNotFoundError` for a
  vanished directory).  On a static tree these are the only filesystem
  errors: `Path.stat` on a listed file and `Path.is_file`/`Path.is_dir` on a
  listed child do not fail, and `Path.is_file` / `Path.is_dir` swallow
  `OSError` anyway.
* `Path.iterdir` materialises the listing eagerly (`os.listdir`) at the first
  iteration step, so an unreadable directory raises *before* any entry is
  yielded; a listing never fails halfway through.
* `Path.rglob('*')` (CPython's glob machinery) *suppresses*
  `PermissionError`: an unreadable directory encountered during the
  recursive walk is yielded as an entry but never descended into, and an
  unreadable top-level argument yields nothing.  Consequently the
  `except` clause in `analyze_subfolder` is unreachable on a static tree and
  `analyze_subfolder` emits no skip diagnostics.
* Python exceptions are modelled with `Except Err`; an `Err` value that a
  caller does not catch propagates, exactly as an uncaught exception does.
* The adaptive-split test `elapsed_time > 3` is wall-clock dependent; it is
  modelled as an explicit boolean parameter `split` (the specification's
  injectable `elapsedThreshold`): `split = true` is the near-zero threshold
  (the test always fires), `split = false` the very large one (it never
  fires).
* Thread-pool scheduling (`ThreadPoolExecutor` / `as_completed`) only
  changes the order in which per-subfolder results arrive; the model uses
  submission (listing) order.  An exception re-raised by `future.result()`
  propagates out of the collecting loop, which the `Except` plumbing mirrors.
* Skip diagnostics (`print("Skipping inaccessible folder: ...")`) are
  collected as a list of emitted messages.
-/

namespace FolderSizer

/-- A filesystem entry: a regular file with its byte size, or a directory
with its children.  `readable = false` models a directory whose listing
raises `PermissionError`. -/
inductive FS where
  | file (name : String) (size : Nat)
  | dir (name : String) (readable : Bool) (children : List FS)

/-- Name of an entry (`Path.name`). -/
def FS.name : FS → String
  | .file n _ => n
  | .dir n _ _ => n

/-- Embeds `item.is_file()`. -/
def isFile : FS → Bool
  | .file _ _ => true
  | .dir _ _ _ => false

/-- Embeds `item.is_dir()`. -/
def isDir : FS → Bool
  | .file _ _ => false
  | .dir _ _ _ => true

/-- Embeds `item.stat().st_size` for a file entry (0 on a directory; the
program only calls it behind an `is_file()` guard). -/
def fileSize : FS → Nat
  | .file _ s => s
  | .dir _ _ _ => 0

/-- Readability flag of an entry (files are always statable here). -/
def readableFlag : FS → Bool
  | .file _ _ => true
  | .dir _ r _ => r

/-- Independent reference walker over a list of sibling entries: the true
total byte count of every file in the forest, ignoring readability.  This is
the specification's "independent reference walk"; it is *not* part of the
embedded program. -/
def refWalkL : List FS → Nat
  | [] => 0
  | .file _ s :: rest => s + refWalkL rest
  | .dir _ _ cs :: rest => refWalkL cs + refWalkL rest

/-- True disk usage under one entry (reference walker, single entry). -/
def refWalk : FS → Nat
  | .file _ s => s
  | .dir _ _ cs => refWalkL cs

/-- Every directory in the forest is readable. -/
def allReadableL : List FS → Bool
  | [] => true
  | .file _ _ :: rest => allReadableL rest
  | .dir _ r cs :: rest => r && allReadableL cs && allReadableL rest

/-- Number of unreadable directories anywhere in the forest. -/
def unreadableCountL : List FS → Nat
  | [] => 0
  | .file _ _ :: rest => unreadableCountL rest
  | .dir _ r cs :: rest =>
      (if r then 0 else 1) + unreadableCountL cs + unreadableCountL rest

/-- Entries yielded by CPython's recursive glob below a list of siblings
whose parent directory was readable: every child is yielded; a readable
child directory is descended into, an unreadable one is not (glob suppresses
the `PermissionError`). -/
def rglobL : List FS → List FS
  | [] => []
  | .file f s :: rest => .file f s :: rglobL rest
  | .dir m r cs :: rest => .dir m r cs :: (if r then rglobL cs else []) ++ rglobL rest

/-- Embeds `folder.rglob('*')`: nothing is yielded when `folder` itself is
unreadable (glob suppresses the `PermissionError` on the top directory). -/
def rglob : FS → List FS
  | .file _ _ => []
  | .dir _ r cs => if r then rglobL cs else []

/-- Sum of `item.stat().st_size` over the file entries of a listing: embeds
both `sum(item.stat().st_size for item in path.iterdir() if item.is_file())`
(line 58) and the `if item.is_file(): total_size += item.stat().st_size`
loops. -/
def fileSum (l : List FS) : Nat := ((l.filter isFile).map fileSize).sum

/-- Embeds `analyze_subfolder` (lines 31-39): iterate `folder.rglob('*')`
and sum the sizes of the file entries.  Its `except` clause is unreachable
on a static tree (see the module comment), so no skip diagnostic is ever
emitted here and the function is total. -/
def analyze_subfolder (folder : FS) : Nat := fileSum (rglob folder)

/-- Python exception classes that can cross function boundaries in the
embedded fragment, plus `directoryError` for the specification's
`DirectoryError` (the guard `not path.exists() or not path.is_dir()` at
line 91). -/
inductive Err where
  | directoryError
  | permissionDenied
  | notADirectory
  | unboundLocal
deriving DecidableEq

/-- The skip diagnostic printed for an unreadable folder. -/
def skipMsg (n : String) : String := "Skipping inaccessible folder: " ++ n

/-- Directory children of a listing (`if subfolder.is_dir()`). -/
def dirChildren (l : List FS) : List FS := l.filter isDir

/-- Embeds `split_analysis` (lines 42-51): list `path` again and sum
`analyze_subfolder` over its directory children on the worker pool.  File
children of `path` are *not* counted.  `path.iterdir()` here is not guarded
by any `try`, so an unreadable `path` raises `PermissionError` and a file
argument raises `NotADirectoryError`. -/
def split_analysis (path : FS) : Except Err Nat :=
  match path with
  | .file _ _ => .error .notADirectory
  | .dir _ false _ => .error .permissionDenied
  | .dir _ true cs => .ok (((dirChildren cs).map analyze_subfolder).sum)

/-- One step of the synchronous loop of `get_total_folder_size`: files add
their size, directory children add `analyze_subfolder`. -/
def iterSum : List FS → Nat
  | [] => 0
  | .file _ s :: rest => s + iterSum rest
  | .dir m r cs :: rest => analyze_subfolder (.dir m r cs) + iterSum rest

/-- Embeds `get_total_folder_size` (lines 10-28).  The synchronous pass sums
the listing (`iterSum`); an unreadable `path` is caught by the `except` and
leaves `total_size = 0` with one skip diagnostic.  The flow then reaches the
`elapsed_time > 3` test (modelled by `split`) even after a catch; when it
fires, `split_analysis` *replaces* the synchronous total, and any exception
it raises propagates (no enclosing `try`). -/
def get_total_folder_size (split : Bool) (path : FS) : Except Err (Nat × List String) :=
  match path with
  | .file _ _ => .error .notADirectory
  | .dir n r cs =>
      let total : Nat := if r then iterSum cs else 0
      let skips : List String := if r then [] else [skipMsg n]
      if split then
        match split_analysis (.dir n r cs) with
        | .ok t => .ok (t, skips)
        | .error e => .error e
      else
        .ok (total, skips)

/-- Embeds `analyze_folder` (lines 54-64), returning
`(path.name, files_size, total_size)` plus the skip diagnostics printed
during the call.  On an unreadable directory the `files_size` listing at
line 58 raises first, the `except` prints one skip and both sizes remain
`0`.  A `PermissionError` escaping `get_total_folder_size` (only possible
via `split_analysis`) is caught the same way, after `files_size` was already
assigned; `NotADirectoryError` is not among the caught classes and
propagates. -/
def analyze_folder (split : Bool) (path : FS) : Except Err (String × Nat × Nat × List String) :=
  match path with
  | .file _ _ => .error .notADirectory
  | .dir n false _ => .ok (n, 0, 0, [skipMsg n])
  | .dir n true cs =>
      match get_total_folder_size split (.dir n true cs) with
      | .ok (t, sk) => .ok (n, fileSum cs, t, sk)
      | .error .permissionDenied => .ok (n, fileSum cs, 0, [skipMsg n])
      | .error e => .error e

/-- Root-level files of a listing with their sizes, in listing order
(the dictionary built by `analyze_files_in_directory`). -/
def rootFilesOf (l : List FS) : List (String × Nat) :=
  l.filterMap fun c => match c with
    | .file f s => some (f, s)
    | .dir _ _ _ => none

/-- Embeds `analyze_files_in_directory` (lines 67-75).  When the listing of
`path` raises `PermissionError` (or `FileNotFoundError`), the loop variable
`file` was never bound (the listing fails before the first entry), so the
handler's `print(f"... {file}")` itself raises `UnboundLocalError`, which
nothing catches: the function fails instead of producing a skip outcome.  A
file argument raises `NotADirectoryError`, which is not caught at all. -/
def analyze_files_in_directory (path : FS) : Except Err (List (String × Nat)) :=
  match path with
  | .file _ _ => .error .notADirectory
  | .dir _ false _ => .error .unboundLocal
  | .dir _ true cs => .ok (rootFilesOf cs)

/-- Embeds `format_size` (lines 78-86); `//` is `Nat` division. -/
def format_size (size : Nat) : String :=
  if size < 1024 then toString size ++ " B"
  else if size < 1048576 then toString (size / 1024) ++ " KB"
  else if size < 1073741824 then toString (size / 1048576) ++ " MB"
  else toString (size / 1073741824) ++ " GB"

/-- The data assembled by one pass of `perform_analysis`: the specification's
`AnalysisSnapshot`.  `subfolderTotals` lists
`(subfolder name, immediateFilesSize, totalRecursiveSize)` — the code's
`files_sizes` and `folder_sizes` dictionaries — in listing order (the
`as_completed` arrival order is nondeterministic but fills the same
key-value pairs); `rootFiles` is `files_info`; `skips` collects the skip
diagnostics printed during the pass. -/
structure Snapshot where
  rootDirectory : String
  subfolderTotals : List (String × Nat × Nat)
  rootFiles : List (String × Nat)
  skips : List String
deriving DecidableEq

/-- Runs `analyze_folder` over the submitted subfolder tasks and collects
the results at the barrier; an exception re-raised by `future.result()`
propagates. -/
def runTasks (split : Bool) : List FS → Except Err (List (String × Nat × Nat × List String))
  | [] => .ok []
  | c :: cs =>
      match analyze_folder split c, runTasks split cs with
      | .ok r, .ok rs => .ok (r :: rs)
      | .error e, _ => .error e
      | .ok _, .error e => .error e

/-- Embeds `perform_analysis` (lines 100-122) for one pass over `directory`:
build the futures dictionary from `directory.iterdir()` (an unreadable
directory raises `PermissionError` right here, uncaught), collect the
root-level files, then gather every subfolder's `(files_size, total_size)`
at the barrier.  The plotting call is presentation and is not modelled. -/
def perform_analysis (split : Bool) (directory : FS) : Except Err Snapshot :=
  match directory with
  | .file _ _ => .error .notADirectory
  | .dir _ false _ => .error .permissionDenied
  | .dir n true cs =>
      match runTasks split (dirChildren cs), analyze_files_in_directory (.dir n true cs) with
      | .ok rs, .ok fi =>
          .ok { rootDirectory := n
              , subfolderTotals := rs.map fun r => (r.1, r.2.1, r.2.2.1)
              , rootFiles := fi
              , skips := rs.flatMap fun r => r.2.2.2 }
      | .error e, _ => .error e
      | .ok _, .error e => .error e

/-- Embeds the entry check of `analyze_and_plot` (lines 89-93) and the first
pass.  `none` models a path that does not exist; a file fails `is_dir()`.
Both take the early-return branch, which the specification names
`DirectoryError`.  An existing but unreadable directory passes the
`exists()`/`is_dir()` guard and only fails later, inside
`perform_analysis`. -/
def analyze_and_plot (split : Bool) (target : Option FS) : Except Err Snapshot :=
  match target with
  | none => .error .directoryError
  | some (.file _ _) => .error .directoryError
  | some (.dir n r cs) => perform_analysis split (.dir n r cs)

/-- The guard `path.exists() and path.is_dir()` of line 91. -/
def existsAndIsDir : Option FS → Bool
  | some (.dir _ _ _) => true
  | _ => false

/-- Embeds the `go_back` closure (lines 180-184) acting on the `history`
stack (a Python list; the top of the stack is the last element,
`history[-1]`): pop only when more than one entry is present. -/
def go_back (history : List String) : List String :=
  if 1 < history.length then history.dropLast else history

/-- Navigation-history states reachable in a session of `analyze_and_plot`
rooted at `root`: the history is created as `[path]` (line 98) and the only
statement in the whole program that ever mutates it is the `history.pop()`
inside `go_back` (line 182); no drill-down/push operation exists in the
source. -/
inductive Reachable (root : String) : List String → Prop
  | init : Reachable root [root]
  | back {h : List String} : Reachable root h → Reachable root (go_back h)

/-- The conservation total of a snapshot:
`sum(folder_sizes.values()) + sum(files_info.values())`, the program's own
`total_dir_size` (line 133). -/
def conservationTotal (s : Snapshot) : Nat :=
  (s.subfolderTotals.map fun e => e.2.2).sum + (s.rootFiles.map fun e => e.2).sum

/-- Readability of a single entry together with everything below it. -/
def allReadable : FS → Bool
  | .file _ _ => true
  | .dir _ r cs => r && allReadableL cs

/-- The pure value produced by one subfolder task: what `analyze_folder`
returns on a directory argument (name, immediate files size, recursive
total, skip diagnostics), split out for reasoning. -/
def taskResult (split : Bool) : FS → String × Nat × Nat × List String
  | .file n _ => (n, 0, 0, [])
  | .dir n false _ => (n, 0, 0, [skipMsg n])
  | .dir n true cs =>
      (n, fileSum cs,
       (if split then ((dirChildren cs).map analyze_subfolder).sum else iterSum cs), [])

/-- The `(name, immediateFilesSize, totalRecursiveSize)` snapshot entry of a
subfolder task. -/
def entryOf (split : Bool) (c : FS) : String × Nat × Nat :=
  ((taskResult split c).1, (taskResult split c).2.1, (taskResult split c).2.2.1)

/-- The skip diagnostics printed by a subfolder task. -/
def skipsOf (split : Bool) (c : FS) : List String := (taskResult split c).2.2.2

theorem fileSum_nil : fileSum [] = 0 := rfl

theorem fileSum_cons (c : FS) (l : List FS) :
    fileSum (c :: l) = (if isFile c then fileSize c else 0) + fileSum l := by
  by_cases h : isFile c <;> simp [fileSum, List.filter_cons, h]

theorem fileSum_append (a b : List FS) : fileSum (a ++ b) = fileSum a + fileSum b := by
  simp [fileSum, List.filter_append]

theorem fileSum_rglobL (cs : List FS) (h : allReadableL cs = true) :
    fileSum (rglobL cs) = refWalkL cs := by
  induction cs using rglobL.induct with
  | case1 => simp [rglobL, refWalkL, fileSum]
  | case2 f s rest ih =>
    simp only [allReadableL] at h
    simp only [rglobL, refWalkL, fileSum_cons, isFile, fileSize, if_pos]
    rw [ih h]
  | case3 m r cs' rest ih1 ih2 =>
    simp only [allReadableL, Bool.and_eq_true] at h
    obtain ⟨⟨hr, hcs⟩, hrest⟩ := h
    subst hr
    simp [rglobL, refWalkL, fileSum_cons, fileSum_append, isFile, ih1 hcs, ih2 hrest]

theorem analyze_subfolder_readable (m : String) (cs : List FS)
    (h : allReadableL cs = true) :
    analyze_subfolder (.dir m true cs) = refWalkL cs := by
  simp only [analyze_subfolder, rglob, if_pos]
  exact fileSum_rglobL cs h

theorem iterSum_decompose (l : List FS) :
    iterSum l = fileSum l + ((dirChildren l).map analyze_subfolder).sum := by
  induction l with
  | nil => simp [iterSum, fileSum, dirChildren]
  | cons c rest ih =>
    cases c with
    | file f s =>
      simp [iterSum, fileSum_cons, isFile, fileSize, isDir, dirChildren, List.filter_cons, ih]
      omega
    | dir m r cs =>
      simp [iterSum, fileSum_cons, isFile, dirChildren, List.filter_cons, isDir, ih]
      omega

theorem iterSum_eq_refWalkL (l : List FS) (h : allReadableL l = true) :
    iterSum l = refWalkL l := by
  induction l with
  | nil => simp [iterSum, refWalkL]
  | cons c rest ih =>
    cases c with
    | file f s =>
      simp only [allReadableL] at h
      simp only [iterSum, refWalkL, ih h]
    | dir m r cs =>
      simp only [allReadableL, Bool.and_eq_true] at h
      obtain ⟨⟨hr, hcs⟩, hrest⟩ := h
      subst hr
      simp only [iterSum, refWalkL, analyze_subfolder_readable m cs hcs, ih hrest]

theorem refWalkL_decompose (l : List FS) :
    refWalkL l = fileSum l + ((dirChildren l).map refWalk).sum := by
  induction l with
  | nil => simp [refWalkL, fileSum, dirChildren]
  | cons c rest ih =>
    cases c with
    | file f s =>
      simp [refWalkL, fileSum_cons, isFile, fileSize, isDir, dirChildren, List.filter_cons, ih]
      omega
    | dir m r cs =>
      simp [refWalkL, refWalk, fileSum_cons, isFile, dirChildren, List.filter_cons, isDir, ih]
      omega

theorem rootFilesOf_sum (l : List FS) :
    ((rootFilesOf l).map fun e => e.2).sum = fileSum l := by
  induction l with
  | nil => rfl
  | cons c rest ih =>
    cases c with
    | file f s =>
      simp only [rootFilesOf, List.filterMap_cons] at ih ⊢
      simp [fileSum_cons, isFile, fileSize, ih]
    | dir m r cs =>
      simp only [rootFilesOf, List.filterMap_cons] at ih ⊢
      simp [fileSum_cons, isFile, ih]

theorem allReadableL_mem (l : List FS) (h : allReadableL l = true) :
    ∀ c ∈ l, allReadable c = true := by
  induction l with
  | nil => intro c hc; cases hc
  | cons d rest ih =>
    intro c hc
    cases d with
    | file f s =>
      simp only [allReadableL] at h
      rcases List.mem_cons.mp hc with h1 | h1
      · subst h1; rfl
      · exact ih h c h1
    | dir m r cs =>
      simp only [allReadableL, Bool.and_eq_true] at h
      obtain ⟨⟨hr, hcs⟩, hrest⟩ := h
      rcases List.mem_cons.mp hc with h1 | h1
      · subst h1; simp [allReadable, hr, hcs]
      · exact ih hrest c h1

theorem mem_dirChildren_isDir (l : List FS) (c : FS) (hc : c ∈ dirChildren l) :
    isDir c = true :=
  (List.mem_filter.mp hc).2

theorem mem_dirChildren_mem (l : List FS) (c : FS) (hc : c ∈ dirChildren l) :
    c ∈ l :=
  (List.mem_filter.mp hc).1

theorem analyze_folder_eq_taskResult (split : Bool) (c : FS) (h : isDir c = true) :
    analyze_folder split c = .ok (taskResult split c) := by
  cases c with
  | file f s => simp [isDir] at h
  | dir n r cs =>
    cases r with
    | false => simp [analyze_folder, taskResult]
    | true =>
      cases split with
      | false => simp [analyze_folder, get_total_folder_size, taskResult]
      | true =>
        simp [analyze_folder, get_total_folder_size, split_analysis, taskResult]

theorem runTasks_eq (split : Bool) (l : List FS) (h : ∀ c ∈ l, isDir c = true) :
    runTasks split l = .ok (l.map (taskResult split)) := by
  induction l with
  | nil => rfl
  | cons c rest ih =>
    have hc : isDir c = true := h c (List.mem_cons_self c rest)
    have hrest : ∀ d ∈ rest, isDir d = true := fun d hd => h d (List.mem_cons_of_mem c hd)
    simp [runTasks, analyze_folder_eq_taskResult split c hc, ih hrest]

theorem flatMap_map_eq (g : (String × Nat × Nat × List String) → List String)
    (f : FS → String × Nat × Nat × List String) (l : List FS) :
    (l.map f).flatMap g = l.flatMap fun c => g (f c) := by
  induction l with
  | nil => rfl
  | cons c rest ih => simp [List.flatMap_cons, ih]

theorem perform_analysis_readable (split : Bool) (n : String) (cs : List FS) :
    perform_analysis split (.dir n true cs) =
      .ok { rootDirectory := n
          , subfolderTotals := (dirChildren cs).map (entryOf split)
          , rootFiles := rootFilesOf cs
          , skips := (dirChildren cs).flatMap (skipsOf split) } := by
  have h := runTasks_eq split (dirChildren cs) (mem_dirChildren_isDir cs)
  simp only [perform_analysis, h, analyze_files_in_directory]
  simp [entryOf, skipsOf, Function.comp, flatMap_map_eq]
  congr 1

/-- The specification's concrete scenario: root `/R` with subfolder `A`
holding one 2000-byte file, subfolder `B` holding two 10-byte files, and a
500-byte file `f` directly in the root. -/
def sceneTree : FS :=
  .dir "R" true
    [.dir "A" true [.file "fileA" 2000],
     .dir "B" true [.file "b1" 10, .file "b2" 10],
     .file "f" 500]

theorem sceneTree_eval :
    perform_analysis false sceneTree =
      .ok ⟨"R", [("A", 2000, 2000), ("B", 20, 20)], [("f", 500)], []⟩ := by
  show perform_analysis false
      (.dir "R" true
        [.dir "A" true [.file "fileA" 2000],
         .dir "B" true [.file "b1" 10, .file "b2" 10],
         .file "f" 500]) = _
  rw [perform_analysis_readable]
  simp [dirChildren, List.filter_cons, isDir, entryOf, skipsOf, taskResult, iterSum,
    analyze_subfolder, rglob, rglobL, fileSum, isFile, fileSize, rootFilesOf]

/-- C5 counterexample: on the specification's concrete scenario the pass
does not produce the claimed entry `A ↦ (0, 2000)`: subfolder `A` holds its
2000-byte file *immediately*, so `analyze_folder` reports
`immediateFilesSize = 2000`, giving `A ↦ (2000, 2000)`. -/
theorem scene_claimed_entry_cex :
    Except.map (fun s => s.subfolderTotals.lookup "A") (perform_analysis false sceneTree)
      = .ok (some (2000, 2000)) ∧
    some ((2000 : Nat), (2000 : Nat)) ≠ some ((0 : Nat), (2000 : Nat)) := by
  refine ⟨?_, by decide⟩
  rw [sceneTree_eval]
  simp [Except.map, List.lookup]

/-- C5 (amended): on the concrete scenario the pass produces
`subfolderTotals = {A ↦ (2000, 2000), B ↦ (20, 20)}`, `rootFiles = {f ↦ 500}`
and no skips; the conservation total is 2520, matching the reference walk. -/
theorem scene_snapshot :
    perform_analysis false sceneTree =
      .ok ⟨"R", [("A", 2000, 2000), ("B", 20, 20)], [("f", 500)], []⟩ ∧
    conservationTotal ⟨"R", [("A", 2000, 2000), ("B", 20, 20)], [("f", 500)], []⟩ = 2520 ∧
    refWalk sceneTree = 2520 := by
  refine ⟨sceneTree_eval, by simp [conservationTotal], ?_⟩
  show refWalk (.dir "R" true
    [.dir "A" true [.file "fileA" 2000],
     .dir "B" true [.file "b1" 10, .file "b2" 10],
     .file "f" 500]) = 2520
  simp [refWalk, refWalkL]

/-- C8: the size-formatting boundaries sit exactly at the powers of 1024:
1023 stays in bytes, 1024 moves to KB, 1048575 stays in KB, 1048576 moves to
MB, and the straddling pairs display distinct units. -/
theorem format_size_boundaries :
    format_size 1023 = "1023 B" ∧ format_size 1024 = "1 KB" ∧
    format_size 1048575 = "1023 KB" ∧ format_size 1048576 = "1 MB" ∧
    format_size 1023 ≠ format_size 1024 ∧
    format_size 1048575 ≠ format_size 1048576 := by
  refine ⟨?_, ?_, ?_, ?_, ?_, ?_⟩ <;> decide

/-- C7: `go_back` is a no-op on a one-element history; on a longer history
it pops exactly the top entry, so the new top is the previous element; and
it never empties a nonempty history. -/
theorem go_back_contract (h : List String) (x y : String) (hne : 0 < h.length) :
    go_back [x] = [x] ∧ go_back (h ++ [x, y]) = h ++ [x] ∧
    0 < (go_back h).length := by
  refine ⟨by simp [go_back], ?_, ?_⟩
  · have hlen : 1 < (h ++ [x, y]).length := by
      simp only [List.length_append, List.length_cons, List.length_nil]
      omega
    have hsplit : h ++ [x, y] = (h ++ [x]) ++ [y] := by simp
    rw [go_back, if_pos hlen, hsplit, List.dropLast_append_of_ne_nil]
    · simp
    · simp
  · by_cases h1 : 1 < h.length
    · simp only [go_back, if_pos h1, List.length_dropLast]
      omega
    · simp only [go_back, if_neg h1]
      omega

/-- C7 witness at a concrete history. -/
theorem go_back_contract_witness :
    0 < (["a"] : List String).length ∧
    (go_back ["b"] = ["b"] ∧ go_back (["a"] ++ ["b", "c"]) = ["a"] ++ ["b"] ∧
      0 < (go_back ["a"]).length) :=
  ⟨by decide, go_back_contract ["a"] "b" "c" (by decide)⟩

/-- C9: every reachable history state of a session rooted at `root` is
exactly `[root]`: the source contains no push (drill-down) operation, so the
history always has exactly one element, the displayed top never changes, and
`go_back` never alters the stack. -/
theorem history_singleton (root : String) (h : List String)
    (hr : Reachable root h) :
    h = [root] ∧ go_back h = h ∧ h.length = 1 := by
  induction hr with
  | init => exact ⟨rfl, by simp [go_back], rfl⟩
  | back hprev ih =>
    obtain ⟨h1, h2, h3⟩ := ih
    rw [h2]
    exact ⟨h1, h2, h3⟩

/-- C9 witness at the initial state. -/
theorem history_singleton_witness :
    (["r"] : List String) = ["r"] ∧ go_back ["r"] = ["r"] ∧
    (["r"] : List String).length = 1 :=
  history_singleton "r" ["r"] Reachable.init

/-- C10: when listing the analyzed root's files fails (unreadable
directory), `analyze_files_in_directory` does not produce a skip outcome: the
handler's reference to the never-bound loop variable raises
`UnboundLocalError`, interrupting the pass. -/
theorem root_listing_failure (n : String) (cs : List FS) :
    analyze_files_in_directory (FS.dir n false cs) = .error .unboundLocal := by
  simp [analyze_files_in_directory]

/-- C10 witness at a concrete unreadable directory. -/
theorem root_listing_failure_witness :
    analyze_files_in_directory (FS.dir "X" false [FS.file "a" 1])
      = .error .unboundLocal :=
  root_listing_failure "X" [FS.file "a" 1]

/-- C1: conservation.  For a root whose tree contains only readable
directories (so no skips) and with the adaptive split never triggered, one
pass succeeds and the sum of all subfolder `totalRecursiveSize`s plus the
root-level file sizes equals the byte count computed by the independent
reference walk of the tree. -/
theorem conservation_one_pass (n : String) (cs : List FS)
    (h : allReadableL cs = true) :
    ∃ snap, perform_analysis false (FS.dir n true cs) = .ok snap ∧
      conservationTotal snap = refWalkL cs := by
  refine ⟨_, perform_analysis_readable false n cs, ?_⟩
  simp only [conservationTotal]
  rw [rootFilesOf_sum]
  have hmap : ∀ c ∈ dirChildren cs, (entryOf false c).2.2 = refWalk c := by
    intro c hc
    have hd := mem_dirChildren_isDir cs c hc
    have har := allReadableL_mem cs h c (mem_dirChildren_mem cs c hc)
    cases c with
    | file f s => simp [isDir] at hd
    | dir m r ccs =>
      simp only [allReadable, Bool.and_eq_true] at har
      obtain ⟨hr, hccs⟩ := har
      subst hr
      simp [entryOf, taskResult, iterSum_eq_refWalkL ccs hccs, refWalk]
  have htotals : ((dirChildren cs).map (entryOf false)).map (fun e => e.2.2)
      = (dirChildren cs).map refWalk := by
    rw [List.map_map]
    exact List.map_congr_left hmap
  rw [htotals, refWalkL_decompose cs]
  omega

/-- C1 witness at a concrete readable tree. -/
theorem conservation_one_pass_witness :
    allReadableL [FS.dir "A" true [FS.file "a" 7], FS.file "z" 3] = true ∧
    (∃ snap, perform_analysis false
        (FS.dir "W1" true [FS.dir "A" true [FS.file "a" 7], FS.file "z" 3])
        = .ok snap ∧
      conservationTotal snap
        = refWalkL [FS.dir "A" true [FS.file "a" 7], FS.file "z" 3]) :=
  ⟨by simp [allReadableL],
   conservation_one_pass "W1" [FS.dir "A" true [FS.file "a" 7], FS.file "z" 3]
     (by simp [allReadableL])⟩

/-- A root with one subfolder `S` that holds one 1-byte file immediately.
`split_analysis` lists only the *directory* children of `S`, so the split
path drops root-level files of the split subtree. -/
def splitCexTree : FS := .dir "R" true [.dir "S" true [.file "f" 1]]

theorem splitCexTree_eval_true :
    perform_analysis true splitCexTree = .ok ⟨"R", [("S", 1, 0)], [], []⟩ := by
  show perform_analysis true (.dir "R" true [.dir "S" true [.file "f" 1]]) = _
  rw [perform_analysis_readable]
  simp [dirChildren, List.filter_cons, isDir, entryOf, skipsOf, taskResult,
    analyze_subfolder, rglob, rglobL, fileSum, isFile, fileSize, rootFilesOf]

theorem splitCexTree_eval_false :
    perform_analysis false splitCexTree = .ok ⟨"R", [("S", 1, 1)], [], []⟩ := by
  show perform_analysis false (.dir "R" true [.dir "S" true [.file "f" 1]]) = _
  rw [perform_analysis_readable]
  simp [dirChildren, List.filter_cons, isDir, entryOf, skipsOf, taskResult, iterSum,
    analyze_subfolder, rglob, rglobL, fileSum, isFile, fileSize, rootFilesOf]

/-- C2 counterexample: on a fixed static tree whose subfolder `S` holds a
root-level file, forcing the split (`elapsed_time > 3` always true) changes
`S`'s `totalRecursiveSize` from 1 to 0, because `split_analysis` re-lists
only directory children and drops `S`'s own files. -/
theorem split_changes_total_cex :
    Except.map Snapshot.subfolderTotals (perform_analysis true splitCexTree)
      = .ok [("S", 1, 0)] ∧
    Except.map Snapshot.subfolderTotals (perform_analysis false splitCexTree)
      = .ok [("S", 1, 1)] ∧
    ([(("S" : String), (1 : Nat), (0 : Nat))] : List (String × Nat × Nat))
      ≠ [("S", 1, 1)] := by
  refine ⟨?_, ?_, by decide⟩
  · rw [splitCexTree_eval_true]; rfl
  · rw [splitCexTree_eval_false]; rfl

/-- Byte count of the immediate (root-level) file children of an entry. -/
def immediateFileBytes : FS → Nat
  | .file _ _ => 0
  | .dir _ _ cs => fileSum cs

/-- C2 (amended): split-invariance holds exactly when no bytes sit in files
directly inside a (readable) subfolder: if every readable subfolder of the
root has zero immediate file bytes, the always-split and never-split passes
produce identical `subfolderTotals`; otherwise the split run omits exactly
those immediate file bytes (see the counterexample). -/
theorem split_invariance_no_root_files (n : String) (cs : List FS)
    (h : ∀ c ∈ dirChildren cs, readableFlag c = true → immediateFileBytes c = 0) :
    ∃ s₁ s₂, perform_analysis true (FS.dir n true cs) = .ok s₁ ∧
      perform_analysis false (FS.dir n true cs) = .ok s₂ ∧
      s₁.subfolderTotals = s₂.subfolderTotals := by
  refine ⟨_, _, perform_analysis_readable true n cs,
    perform_analysis_readable false n cs, ?_⟩
  simp only []
  apply List.map_congr_left
  intro c hc
  have hd := mem_dirChildren_isDir cs c hc
  cases c with
  | file f s => simp [isDir] at hd
  | dir m r ccs =>
    cases r with
    | false => simp [entryOf, taskResult]
    | true =>
      have hz : fileSum ccs = 0 := h (.dir m true ccs) hc rfl
      simp [entryOf, taskResult, iterSum_decompose, hz]

/-- C2 witness at a concrete tree whose subfolder has no immediate files. -/
theorem split_invariance_no_root_files_witness :
    (∀ c ∈ dirChildren [FS.dir "S" true [FS.dir "T" true [FS.file "u" 6]]],
        readableFlag c = true → immediateFileBytes c = 0) ∧
    (∃ s₁ s₂, perform_analysis true
        (FS.dir "W2" true [FS.dir "S" true [FS.dir "T" true [FS.file "u" 6]]])
        = .ok s₁ ∧
      perform_analysis false
        (FS.dir "W2" true [FS.dir "S" true [FS.dir "T" true [FS.file "u" 6]]])
        = .ok s₂ ∧
      s₁.subfolderTotals = s₂.subfolderTotals) := by
  have h : ∀ c ∈ dirChildren [FS.dir "S" true [FS.dir "T" true [FS.file "u" 6]]],
      readableFlag c = true → immediateFileBytes c = 0 := by
    simp [dirChildren, List.filter_cons, isDir, immediateFileBytes, fileSum, isFile]
  exact ⟨h, split_invariance_no_root_files "W2"
    [FS.dir "S" true [FS.dir "T" true [FS.file "u" 6]]] h⟩

/-- C3 counterexample: with the adaptive split triggered, the snapshot entry
for subfolder `S` is `(immediateFilesSize, totalRecursiveSize) = (1, 0)`,
violating the claimed `totalRecursiveSize ≥ immediateFilesSize`. -/
theorem total_below_files_cex :
    Except.map Snapshot.subfolderTotals (perform_analysis true splitCexTree)
      = .ok [("S", 1, 0)] ∧ ¬ ((1 : Nat) ≤ (0 : Nat)) := by
  refine ⟨?_, by decide⟩
  rw [splitCexTree_eval_true]; rfl

/-- C3 (amended): when the adaptive split is not triggered, every entry of
`subfolderTotals` satisfies `totalRecursiveSize ≥ immediateFilesSize ≥ 0`,
on every path including per-entry skips; the split path breaks the bound
(see the counterexample). -/
theorem totals_dominate_files_no_split (root : FS) (snap : Snapshot)
    (h : perform_analysis false root = .ok snap) :
    ∀ e ∈ snap.subfolderTotals, 0 ≤ e.2.1 ∧ e.2.1 ≤ e.2.2 := by
  cases root with
  | file f s => simp [perform_analysis] at h
  | dir n r cs =>
    cases r with
    | false => simp [perform_analysis] at h
    | true =>
      rw [perform_analysis_readable] at h
      obtain rfl : snap = _ := (Except.ok.injEq _ _).mp h.symm
      intro e he
      simp only [List.mem_map] at he
      obtain ⟨c, hc, rfl⟩ := he
      have hd := mem_dirChildren_isDir cs c hc
      cases c with
      | file f s => simp [isDir] at hd
      | dir m rr ccs =>
        cases rr with
        | false => simp [entryOf, taskResult]
        | true =>
          simp only [entryOf, taskResult, if_neg (by simp : ¬ false = true)]
          exact ⟨Nat.zero_le _, by rw [iterSum_decompose]; omega⟩

/-- C3 witness at a concrete pass. -/
theorem totals_dominate_files_no_split_witness :
    perform_analysis false (FS.dir "W3" true [FS.dir "S" true [FS.file "g" 5]])
      = .ok ⟨"W3", [("S", 5, 5)], [], []⟩ ∧
    (0 ≤ (("S", (5 : Nat), (5 : Nat)) : String × Nat × Nat).2.1 ∧
      (("S", (5 : Nat), (5 : Nat)) : String × Nat × Nat).2.1
        ≤ (("S", (5 : Nat), (5 : Nat)) : String × Nat × Nat).2.2) := by
  have heval : perform_analysis false (FS.dir "W3" true [FS.dir "S" true [FS.file "g" 5]])
      = .ok ⟨"W3", [("S", 5, 5)], [], []⟩ := by
    rw [perform_analysis_readable]
    simp [dirChildren, List.filter_cons, isDir, entryOf, skipsOf, taskResult, iterSum,
      analyze_subfolder, rglob, rglobL, fileSum, isFile, fileSize, rootFilesOf]
  exact ⟨heval,
    totals_dominate_files_no_split _ _ heval ("S", 5, 5) (by simp)⟩

theorem readableFlag_of_allReadable (c : FS) (h : allReadable c = true) :
    readableFlag c = true := by
  cases c with
  | file f s => rfl
  | dir m r cs =>
    simp only [allReadable, Bool.and_eq_true] at h
    simp [readableFlag, h.1]

theorem skipsOf_readable (split : Bool) (c : FS) (h : readableFlag c = true) :
    skipsOf split c = [] := by
  cases c with
  | file f s => simp [skipsOf, taskResult]
  | dir m r cs =>
    simp only [readableFlag] at h
    subst h
    simp [skipsOf, taskResult]

theorem flatMap_skips_nil (split : Bool) (l : List FS)
    (h : ∀ c ∈ l, readableFlag c = true) : l.flatMap (skipsOf split) = [] := by
  induction l with
  | nil => rfl
  | cons c rest ih =>
    rw [List.flatMap_cons, skipsOf_readable split c (h c (List.mem_cons_self c rest)),
      ih fun d hd => h d (List.mem_cons_of_mem c hd)]
    rfl

theorem dirChildren_append_dir (pre post : List FS) (d : FS) (hd : isDir d = true) :
    dirChildren (pre ++ d :: post) = dirChildren pre ++ d :: dirChildren post := by
  simp [dirChildren, List.filter_append, List.filter_cons, hd]

theorem rootFilesOf_append_dir (pre post : List FS) (sn : String) (r : Bool)
    (scs : List FS) :
    rootFilesOf (pre ++ FS.dir sn r scs :: post) = rootFilesOf pre ++ rootFilesOf post := by
  simp [rootFilesOf, List.filterMap_append, List.filterMap_cons]

/-- C4 counterexample: a tree with an unreadable directory `T` nested inside
the readable subfolder `S`.  The pass emits *no* skip diagnostic for `T`
(CPython's recursive glob suppresses the `PermissionError` silently) and
silently undercounts: it reports 10 of the 15 real bytes.  So a skip
diagnostic is *not* emitted for each unreadable entry. -/
theorem nested_unreadable_silent_cex :
    perform_analysis false
        (FS.dir "R" true
          [FS.dir "S" true [FS.file "g" 10, FS.dir "T" false [FS.file "h" 5]]])
      = .ok ⟨"R", [("S", 10, 10)], [], []⟩ ∧
    (⟨"R", [("S", 10, 10)], [], []⟩ : Snapshot).skips = [] ∧
    0 < unreadableCountL
        [FS.dir "S" true [FS.file "g" 10, FS.dir "T" false [FS.file "h" 5]]] ∧
    refWalkL [FS.dir "S" true [FS.file "g" 10, FS.dir "T" false [FS.file "h" 5]]]
      = 15 := by
  refine ⟨?_, rfl, ?_, ?_⟩
  · rw [perform_analysis_readable]
    simp [dirChildren, List.filter_cons, isDir, entryOf, skipsOf, taskResult, iterSum,
      analyze_subfolder, rglob, rglobL, fileSum, isFile, fileSize, rootFilesOf]
  · simp [unreadableCountL]
  · simp [refWalkL]

/-- C4 (amended): skip tolerance holds at the root level of a pass.  For a
root listing `pre ++ [S] ++ post` that is readable everywhere except that
the immediate subfolder `S` is unreadable, compared with the same tree with
`S` readable: exactly one skip diagnostic (for `S`) is emitted, `S`'s entry
degrades to `(0, 0)`, every other snapshot entry and the root-file map are
unchanged, and the conservation total drops by exactly `S`'s true size.
(Unreadable directories *nested deeper* are skipped silently instead — see
the counterexample.) -/
theorem skip_tolerance_root_level (n sn : String) (pre post scs : List FS)
    (hpre : allReadableL pre = true) (hpost : allReadableL post = true)
    (hscs : allReadableL scs = true) :
    ∃ s₁ s₂,
      perform_analysis false (FS.dir n true (pre ++ FS.dir sn true scs :: post))
        = .ok s₁ ∧
      perform_analysis false (FS.dir n true (pre ++ FS.dir sn false scs :: post))
        = .ok s₂ ∧
      s₁.skips = [] ∧
      s₂.skips = [skipMsg sn] ∧
      s₁.subfolderTotals
        = (dirChildren pre).map (entryOf false)
            ++ (sn, fileSum scs, refWalkL scs) :: (dirChildren post).map (entryOf false) ∧
      s₂.subfolderTotals
        = (dirChildren pre).map (entryOf false)
            ++ (sn, 0, 0) :: (dirChildren post).map (entryOf false) ∧
      s₂.rootFiles = s₁.rootFiles ∧
      conservationTotal s₂ + refWalkL scs = conservationTotal s₁ := by
  have hreadpre : ∀ c ∈ dirChildren pre, readableFlag c = true := fun c hc =>
    readableFlag_of_allReadable c
      (allReadableL_mem pre hpre c (mem_dirChildren_mem pre c hc))
  have hreadpost : ∀ c ∈ dirChildren post, readableFlag c = true := fun c hc =>
    readableFlag_of_allReadable c
      (allReadableL_mem post hpost c (mem_dirChildren_mem post c hc))
  have hmid1 : entryOf false (FS.dir sn true scs) = (sn, fileSum scs, refWalkL scs) := by
    simp [entryOf, taskResult, iterSum_eq_refWalkL scs hscs]
  have hmid2 : entryOf false (FS.dir sn false scs) = (sn, 0, 0) := by
    simp [entryOf, taskResult]
  refine ⟨_, _, perform_analysis_readable false n _, perform_analysis_readable false n _,
    ?_, ?_, ?_, ?_, ?_, ?_⟩
  · show (dirChildren (pre ++ FS.dir sn true scs :: post)).flatMap (skipsOf false) = []
    rw [dirChildren_append_dir pre post (FS.dir sn true scs) rfl,
      List.flatMap_append, List.flatMap_cons,
      flatMap_skips_nil false (dirChildren pre) hreadpre,
      flatMap_skips_nil false (dirChildren post) hreadpost]
    simp [skipsOf, taskResult]
  · show (dirChildren (pre ++ FS.dir sn false scs :: post)).flatMap (skipsOf false)
        = [skipMsg sn]
    rw [dirChildren_append_dir pre post (FS.dir sn false scs) rfl,
      List.flatMap_append, List.flatMap_cons,
      flatMap_skips_nil false (dirChildren pre) hreadpre,
      flatMap_skips_nil false (dirChildren post) hreadpost]
    simp [skipsOf, taskResult]
  · show (dirChildren (pre ++ FS.dir sn true scs :: post)).map (entryOf false) = _
    rw [dirChildren_append_dir pre post (FS.dir sn true scs) rfl,
      List.map_append, List.map_cons, hmid1]
  · show (dirChildren (pre ++ FS.dir sn false scs :: post)).map (entryOf false) = _
    rw [dirChildren_append_dir pre post (FS.dir sn false scs) rfl,
      List.map_append, List.map_cons, hmid2]
  · show rootFilesOf (pre ++ FS.dir sn false scs :: post)
        = rootFilesOf (pre ++ FS.dir sn true scs :: post)
    rw [rootFilesOf_append_dir, rootFilesOf_append_dir]
  · simp only [conservationTotal,
      dirChildren_append_dir pre post (FS.dir sn true scs) rfl,
      dirChildren_append_dir pre post (FS.dir sn false scs) rfl,
      List.map_append, List.map_cons, List.sum_append, List.sum_cons, hmid1, hmid2,
      rootFilesOf_append_dir]
    omega

/-- C4 witness at a concrete instance of the two trees. -/
theorem skip_tolerance_root_level_witness :
    (allReadableL [FS.dir "A" true [FS.file "a" 7]] = true ∧
      allReadableL [FS.file "z" 3] = true ∧
      allReadableL [FS.file "s1" 4] = true) ∧
    (∃ s₁ s₂,
      perform_analysis false
          (FS.dir "R" true
            ([FS.dir "A" true [FS.file "a" 7]]
              ++ FS.dir "S" true [FS.file "s1" 4] :: [FS.file "z" 3]))
        = .ok s₁ ∧
      perform_analysis false
          (FS.dir "R" true
            ([FS.dir "A" true [FS.file "a" 7]]
              ++ FS.dir "S" false [FS.file "s1" 4] :: [FS.file "z" 3]))
        = .ok s₂ ∧
      s₁.skips = [] ∧
      s₂.skips = [skipMsg "S"] ∧
      s₁.subfolderTotals
        = (dirChildren [FS.dir "A" true [FS.file "a" 7]]).map (entryOf false)
            ++ ("S", fileSum [FS.file "s1" 4], refWalkL [FS.file "s1" 4])
              :: (dirChildren [FS.file "z" 3]).map (entryOf false) ∧
      s₂.subfolderTotals
        = (dirChildren [FS.dir "A" true [FS.file "a" 7]]).map (entryOf false)
            ++ ("S", 0, 0) :: (dirChildren [FS.file "z" 3]).map (entryOf false) ∧
      s₂.rootFiles = s₁.rootFiles ∧
      conservationTotal s₂ + refWalkL [FS.file "s1" 4] = conservationTotal s₁) :=
  ⟨⟨by simp [allReadableL], by simp [allReadableL], by simp [allReadableL]⟩,
   skip_tolerance_root_level "R" "S" [FS.dir "A" true [FS.file "a" 7]]
     [FS.file "z" 3] [FS.file "s1" 4]
     (by simp [allReadableL]) (by simp [allReadableL]) (by simp [allReadableL])⟩

/-- C6 counterexample: an existing directory that is unreadable passes the
`exists()`/`is_dir()` guard, and the pass then fails with the uncaught
`PermissionError` from `directory.iterdir()` — a failure of the whole call
that is not the `DirectoryError` early return.  So "no other condition makes
the call as a whole fail" is false. -/
theorem unreadable_root_cex :
    existsAndIsDir (some (FS.dir "R" false [])) = true ∧
    analyze_and_plot false (some (FS.dir "R" false [])) = .error .permissionDenied ∧
    Err.permissionDenied ≠ Err.directoryError := by
  refine ⟨rfl, ?_, by decide⟩
  simp [analyze_and_plot, perform_analysis]

/-- C6 (amended): the call fails with `DirectoryError` iff the target does
not exist or is not a directory; every *readable* directory yields a
snapshot; an existing but unreadable directory makes the whole call fail
with the uncaught listing `PermissionError` instead. -/
theorem analyze_contract (split : Bool) (t : Option FS) :
    (analyze_and_plot split t = .error .directoryError ↔ existsAndIsDir t = false) ∧
    (∀ n cs, t = some (FS.dir n true cs) →
        ∃ snap, analyze_and_plot split t = .ok snap) ∧
    (∀ n cs, t = some (FS.dir n false cs) →
        analyze_and_plot split t = .error .permissionDenied) := by
  refine ⟨?_, ?_, ?_⟩
  · match t with
    | none => simp [analyze_and_plot, existsAndIsDir]
    | some (.file f s) => simp [analyze_and_plot, existsAndIsDir]
    | some (.dir n false cs) =>
      simp [analyze_and_plot, perform_analysis, existsAndIsDir]
    | some (.dir n true cs) =>
      simp [analyze_and_plot, perform_analysis_readable, existsAndIsDir]
  · intro n cs ht
    subst ht
    exact ⟨_, perform_analysis_readable split n cs⟩
  · intro n cs ht
    subst ht
    simp [analyze_and_plot, perform_analysis]

/-- C6 witness: a concrete readable directory yields a snapshot. -/
theorem analyze_contract_witness :
    (some (FS.dir "W6" true [FS.file "w" 2]) : Option FS)
        = some (FS.dir "W6" true [FS.file "w" 2]) ∧
    (∃ snap, analyze_and_plot false (some (FS.dir "W6" true [FS.file "w" 2]))
        = .ok snap) :=
  ⟨rfl, (analyze_contract false (some (FS.dir "W6" true [FS.file "w" 2]))).2.1
    "W6" [FS.file "w" 2] rfl⟩

end FolderSizer
